import Mathlib

/-!
Verification development for the `ai_caller_local_llm` telephony voice-agent.

The definitions below are a shallow embedding, translated module by module
from the Python source:

* `app/data_types.py`        — `AudioChunk`, `PhraseObject`
* `app/whisper_handler.py`   — `whisper_transcription_loop`
* `app/conversation_manager.py` — `_trim_history`, `handle_phrase`
* `app/llm_local_handler.py` — `_postprocess_speech_style`, `generate_llm_response`
* `app/twilio_stream_handler.py` — VAD segmenter, player loop, barge-in
* `app/queues.py`            — silence / playback clock
* `app/transcript_manager.py` — transcript buffer
* `src/main.py`              — silence watchdog

Time values and RMS values are modelled as rationals, byte strings by their
lengths where only the length is consulted, and UUIDs by natural numbers
drawn from a fresh counter.  Sets kept in Python `set` objects are modelled
as lists with membership.
-/

namespace AiCaller

/-! ### Python string primitives

Character-level helpers shared by several modules.  `isPySpace` covers the
ASCII part of the whitespace class used by Python regular expressions and
by `str.strip()`; all strings handled by this program are ASCII apart from
a few fixed punctuation glyphs, none of which is whitespace. -/

def isPySpace (c : Char) : Bool :=
  c = ' ' || c = '\t' || c = '\n' || c = '\r' || c = '\x0b' || c = '\x0c'

/-- Model of Python `str.strip()` on a list of characters. -/
def pyStripL (l : List Char) : List Char :=
  ((l.dropWhile isPySpace).reverse.dropWhile isPySpace).reverse

/-- Model of Python `str.strip()`. -/
def pyStrip (s : String) : String :=
  String.mk (pyStripL s.toList)

/-! ### app/data_types.py -/

/-- `AudioChunk` from `app/data_types.py`.  `audio_len` stands for
`len(audio_bytes)`; the byte contents are never inspected by the control
logic modelled here, only their length. -/
structure AudioChunk where
  phrase_id : Nat
  chunk_index : Nat
  audio_len : Nat
  rms : ℚ
  timestamp : ℚ
  duration : ℚ
  transcription : String := ""
  capture_state : String := ""
  is_transcribed : Bool := false
  deriving Repr, DecidableEq

/-- `PhraseObject` from `app/data_types.py`. -/
structure PhraseObject where
  phrase_id : Nat
  chunks : List AudioChunk
  is_done : Bool := false
  deriving Repr, DecidableEq

/-- `PhraseObject.is_complete`: every chunk has been processed
(`all(chunk.is_transcribed for chunk in self.chunks)`). -/
def PhraseObject.is_complete (p : PhraseObject) : Bool :=
  p.chunks.all (fun c => c.is_transcribed)

/-! ### app/whisper_handler.py — `whisper_transcription_loop`

The loop dequeues `AudioChunk` objects.  The queue and the
`detected_phrases` map share the same chunk objects, so the store of record
is the phrase map and a queue entry is modelled as the `(phrase_id,
chunk_index)` reference of the shared object.  The ASR engine is an oracle
`asr : Nat × Nat → String` giving the transcript the engine returns for a
chunk (the empty string models an engine failure, exactly as in
`transcribe_audio`, which catches exceptions and returns `""`). -/

/-- Look up the chunk object shared between `transcription_queue` and
`detected_phrases[phrase_id].chunks`. -/
def lookupChunk (ps : List PhraseObject) (pid idx : Nat) : Option AudioChunk :=
  (ps.find? (fun p => p.phrase_id == pid)).bind
    (fun p => p.chunks.find? (fun c => c.chunk_index == idx))

/-- Apply a field update to the shared chunk object. -/
def updateChunk (ps : List PhraseObject) (pid idx : Nat)
    (f : AudioChunk → AudioChunk) : List PhraseObject :=
  ps.map (fun p =>
    if p.phrase_id == pid then
      { p with chunks := p.chunks.map (fun c => if c.chunk_index == idx then f c else c) }
    else p)

/-- Latch `is_done` on a phrase of the map. -/
def setPhraseDone (ps : List PhraseObject) (pid : Nat) : List PhraseObject :=
  ps.map (fun p => if p.phrase_id == pid then { p with is_done := true } else p)

/-- State threaded through `whisper_transcription_loop`: the
`processed_chunks` set, the shared `detected_phrases` map, and the list of
phrase ids for which `handle_phrase` has been launched
(`asyncio.create_task(handle_phrase(phrase))`), in launch order. -/
structure WhisperState where
  processed : List Nat
  phrases : List PhraseObject
  handled : List Nat
  deriving Repr, DecidableEq

/-- One iteration of the `while True` body of `whisper_transcription_loop`
on a dequeued chunk reference.  Faithful to the source: the branch that
updates the chunk sets `transcription` and inserts the index into
`processed_chunks`, and the completion check then latches `is_done` and
launches `handle_phrase`.  (The source never assigns `is_transcribed`.) -/
def whisperStep (asr : Nat × Nat → String) (s : WhisperState) (ref : Nat × Nat) :
    WhisperState :=
  match lookupChunk s.phrases ref.1 ref.2 with
  | none => s
  | some c =>
    if c.transcription ≠ "" ∨ ref.2 ∈ s.processed then s
    else
      let transcript := asr ref
      let phrases := updateChunk s.phrases ref.1 ref.2
        (fun c => { c with transcription := transcript })
      let s : WhisperState :=
        { s with phrases := phrases, processed := ref.2 :: s.processed }
      match s.phrases.find? (fun p => p.phrase_id == ref.1) with
      | some phrase =>
        if phrase.is_complete ∧ ¬phrase.is_done then
          { s with phrases := setPhraseDone s.phrases ref.1,
                   handled := s.handled ++ [ref.1] }
        else s
      | none => s

/-- Run of the transcription loop over a finite queue history. -/
def whisperRun (asr : Nat × Nat → String) (s : WhisperState)
    (refs : List (Nat × Nat)) : WhisperState :=
  refs.foldl (whisperStep asr) s

/-! ### app/llm_local_handler.py — `_postprocess_speech_style`

The function applies, in order:
1. `re.sub(r"(?m)^\s*(?:[*\-•]+|\d+\.)\s+", "", text)` — strip a list
   marker at each line start;
2. single-character replacements of `•`, `*`, `—`, `-` and the backquote
   by a space, and `text.replace("e.g.", "for example")`;
3. `re.sub(r"\s*\n+\s*", " ", text)` — every maximal whitespace run that
   contains a newline becomes one space;
4. `re.sub(r"\s{2,}", " ", text).strip()` — every maximal whitespace run
   of length at least two becomes one space, then strip;
5. `re.split(r"(?<=[.!?])\s+", text)` and, when more than three parts
   result, `" ".join(parts[:3]).strip()`.

Step 1 is a deterministic scan because the character classes of the
pattern are pairwise disjoint, so the backtracking of the greedy
quantifiers never changes the outcome: at a line start the engine consumes
a maximal whitespace run, then either a maximal run of `*`/`-`/`•` or a
maximal digit run followed by a dot, and the match succeeds exactly when
at least one whitespace character follows; the trailing `\s+` is consumed
greedily, and scanning resumes after the match (a position that is again a
line start exactly when the last consumed character was a newline).  The
scan is implemented by the two-state machine below, `buf` holding the
characters of the attempt in progress (in reverse). -/

def backquote : Char := Char.ofNat 96

def isMarkerSym (c : Char) : Bool :=
  c = '*' || c = '-' || c = '•'

/-- Phases of a list-marker match attempt: inside the leading `\s*`,
inside `[*\-•]+`, inside `\d+`, just after the dot of `\d+\.`, or inside
the trailing `\s+` (the pattern has matched once this phase is reached). -/
inductive MarkerPhase | ws | marks | digits | dot | tail
  deriving Repr, DecidableEq

/-- Scanner mode: outside any attempt (tracking whether the next position
is a line start), or inside an attempt in the given phase with the
attempt's consumed characters held in `buf` (in reverse). -/
inductive ScanMode
  | idle (lineStart : Bool)
  | go (phase : MarkerPhase) (buf : List Char)
  deriving Repr, DecidableEq

/-- The scan of `re.sub(r"(?m)^\s*(?:[*\-•]+|\d+\.)\s+", "", text)`.  On
the failure of an attempt its buffer is flushed verbatim (the skipped
intermediate start positions cannot match, since every later line start
inside the buffer lies in its whitespace prefix and the attempt from
there fails at the same character); on success the buffer is dropped and
scanning resumes, at a line start exactly when the last consumed
character was a newline. -/
def subMarkersRun : ScanMode → List Char → List Char
  | .idle _, [] => []
  | .go phase buf, [] => if phase = .tail then [] else buf.reverse
  | .idle lineStart, c :: cs =>
    if lineStart then
      if isPySpace c then subMarkersRun (.go .ws [c]) cs
      else if isMarkerSym c then subMarkersRun (.go .marks [c]) cs
      else if c.isDigit then subMarkersRun (.go .digits [c]) cs
      else c :: subMarkersRun (.idle (c = '\n')) cs
    else c :: subMarkersRun (.idle (c = '\n')) cs
  | .go phase buf, c :: cs =>
    match phase with
    | .ws =>
      if isPySpace c then subMarkersRun (.go .ws (c :: buf)) cs
      else if isMarkerSym c then subMarkersRun (.go .marks (c :: buf)) cs
      else if c.isDigit then subMarkersRun (.go .digits (c :: buf)) cs
      else buf.reverse ++ c :: subMarkersRun (.idle (c = '\n')) cs
    | .marks =>
      if isMarkerSym c then subMarkersRun (.go .marks (c :: buf)) cs
      else if isPySpace c then subMarkersRun (.go .tail (c :: buf)) cs
      else buf.reverse ++ c :: subMarkersRun (.idle (c = '\n')) cs
    | .digits =>
      if c.isDigit then subMarkersRun (.go .digits (c :: buf)) cs
      else if c = '.' then subMarkersRun (.go .dot (c :: buf)) cs
      else buf.reverse ++ c :: subMarkersRun (.idle (c = '\n')) cs
    | .dot =>
      if isPySpace c then subMarkersRun (.go .tail (c :: buf)) cs
      else buf.reverse ++ c :: subMarkersRun (.idle (c = '\n')) cs
    | .tail =>
      if isPySpace c then subMarkersRun (.go .tail (c :: buf)) cs
      else if buf.head? = some '\n' then
        if isMarkerSym c then subMarkersRun (.go .marks [c]) cs
        else if c.isDigit then subMarkersRun (.go .digits [c]) cs
        else c :: subMarkersRun (.idle (c = '\n')) cs
      else c :: subMarkersRun (.idle (c = '\n')) cs

/-- Model of `re.sub(r"(?m)^\s*(?:[*\-•]+|\d+\.)\s+", "", text)`. -/
def subListMarkers (l : List Char) : List Char :=
  subMarkersRun (.idle true) l

/-- Model of `text.replace(t, r)` for a single-character target. -/
def replaceChar (t r : Char) (l : List Char) : List Char :=
  l.map (fun c => if c = t then r else c)

/-- Model of `text.replace("e.g.", "for example")`: left-to-right,
non-overlapping. -/
def replaceEg : List Char → List Char
  | 'e' :: '.' :: 'g' :: '.' :: rest => "for example".toList ++ replaceEg rest
  | c :: cs => c :: replaceEg cs
  | [] => []

/-- Rewrite each maximal whitespace run of the input through `f` (used for
the two whitespace-collapsing substitutions); `run` is the whitespace
collected so far, in reverse. -/
def procRuns (f : List Char → List Char) (run : List Char) :
    List Char → List Char
  | [] => f run.reverse
  | c :: cs =>
    if isPySpace c then procRuns f (c :: run) cs
    else f run.reverse ++ c :: procRuns f [] cs

/-- Model of `re.sub(r"\s*\n+\s*", " ", text)`: the pattern matches
exactly the maximal whitespace runs containing a newline. -/
def collapseNewlineRuns (l : List Char) : List Char :=
  procRuns (fun r => if r.contains '\n' then [' '] else r) [] l

/-- Model of `re.sub(r"\s{2,}", " ", text)`. -/
def collapseSpaceRuns (l : List Char) : List Char :=
  procRuns (fun r => if 2 ≤ r.length then [' '] else r) [] l

def isSentTerm (c : Char) : Bool :=
  c = '.' || c = '!' || c = '?'

/-- Split-scanner mode: inside a part (with the previous character and
the current part in reverse), or inside a separating whitespace run. -/
inductive SplitMode
  | part (prev : Option Char) (cur : List Char)
  | gap
  deriving Repr, DecidableEq

/-- The scan of `re.split(r"(?<=[.!?])\s+", text)`: a maximal whitespace
run whose preceding character is a sentence terminator separates
parts. -/
def splitSentRun : SplitMode → List Char → List (List Char)
  | .part _ cur, [] => [cur.reverse]
  | .gap, [] => [[]]
  | .part prev cur, c :: cs =>
    if isPySpace c ∧ prev.elim false (fun p => isSentTerm p) then
      cur.reverse :: splitSentRun .gap cs
    else splitSentRun (.part (some c) (c :: cur)) cs
  | .gap, c :: cs =>
    if isPySpace c then splitSentRun .gap cs
    else splitSentRun (.part (some c) [c]) cs

def splitSentences (l : List Char) : List (List Char) :=
  splitSentRun (.part none []) l

/-- Model of `" ".join(parts)`. -/
def joinWithSpace : List (List Char) → List Char
  | [] => []
  | [p] => p
  | p :: ps => p ++ ' ' :: joinWithSpace ps

/-- Steps 2 (from the `e.g.` substitution on) to 4 of
`_postprocess_speech_style`: substitution, whitespace collapsing,
strip. -/
def speechStyleT9 (t6 : List Char) : List Char :=
  pyStripL (collapseSpaceRuns (collapseNewlineRuns (replaceEg t6)))

/-- Step 5 of `_postprocess_speech_style`: `re.split(r"(?<=[.!?])\s+")`
and, beyond three parts, `" ".join(parts[:3]).strip()`. -/
def speechStyleTail (t6 : List Char) : List Char :=
  if 3 < (splitSentences (speechStyleT9 t6)).length then
    pyStripL (joinWithSpace ((splitSentences (speechStyleT9 t6)).take 3))
  else speechStyleT9 t6

/-- `_postprocess_speech_style` from `app/llm_local_handler.py`. -/
def _postprocess_speech_style (text : String) : String :=
  if text = "" then text
  else
    let t1 := subListMarkers text.toList
    let t2 := replaceChar '•' ' ' t1
    let t3 := replaceChar '*' ' ' t2
    let t4 := replaceChar '—' ' ' t3
    let t5 := replaceChar '-' ' ' t4
    let t6 := replaceChar backquote ' ' t5
    String.mk (speechStyleTail t6)

/-! ### app/llm_local_handler.py — conversation initialisation and the
retry loop of `generate_llm_response` (Open WebUI path) -/

inductive Role | system | user | assistant
  deriving Repr, DecidableEq

structure Message where
  role : Role
  content : String
  deriving Repr, DecidableEq

def SYSTEM_INSTRUCTIONS : String :=
  "You are friendly and speak in a natural, conversational tone. " ++
  "Replies must be three sentences or fewer. " ++
  "Do not use 'e.g.', lists, bullets, numbering, emoji, slang, or symbols like '*' or '-'. " ++
  "Write one short paragraph only."

def PER_TURN_GUARDRAIL : String :=
  "RULES: Answer using natural speech. Maximum three sentences. " ++
  "No lists, bullets, numbering, or 'e.g.'. No symbols like '*' or '-'. " ++
  "One short paragraph only."

/-- The single system message placed at index 0 of the history. -/
def systemMessage : Message :=
  ⟨.system, SYSTEM_INSTRUCTIONS ++ "\n\n" ++ PER_TURN_GUARDRAIL⟩

/-- `initialize_conversation` from `app/llm_local_handler.py`. -/
def init_conversation : List Message := [systemMessage]

/-- Outcome of one `requests.post` to the LLM backend, as seen by the
retry loop: an HTTP response with a status code and (for 2xx) the reply
content at `data["choices"][0]["message"]["content"]`, or a raised
exception (timeout, connection error, malformed body). -/
inductive HttpOutcome
  | response (status : Nat) (content : String)
  | exn
  deriving Repr, DecidableEq

def ERROR_PLACEHOLDER : String := "[Error generating response]"

/-- `backoffs = [0.2, 0.6]`, paired with attempt numbers by
`enumerate([None] + backoffs, start=1)`.  Durations are in integer
milliseconds (the source uses seconds 0.2 and 0.6). -/
def llmAttempts : List (Nat × Option Nat) :=
  [(1, none), (2, some 200), (3, some 600)]

/-- Observable result of one call to `generate_llm_response`: the Python
return value (`none` models the function falling off the end of the retry
loop and returning `None`), the `time.sleep` durations performed, and the
number of `requests.post` calls issued. -/
structure LlmCallResult where
  result : Option (String × List Message)
  sleeps : List Nat
  posts : Nat
  deriving Repr, DecidableEq

/-- The `for attempt, backoff in enumerate([None] + backoffs, start=1)`
loop of the Open WebUI path.  On a 5xx response the guard
`attempt <= len(backoffs) + 1` is always true (attempt is at most 3), so
the loop logs, sleeps `backoff` when it is not `None`, and continues; any
other status at least 400 makes `raise_for_status` raise, landing in the
`except` branch, which retries (after `time.sleep(backoff or 0)`) while
`attempt <= len(backoffs)` and otherwise returns the placeholder; a 2xx
response returns the post-processed reply after appending it to the
history.  When the loop exhausts all attempts the function returns
`None`. -/
def llmRunAttempts (respond : Nat → HttpOutcome) (hist1 : List Message) :
    List (Nat × Option Nat) → List Nat → Nat → LlmCallResult
  | [], sleeps, posts => ⟨none, sleeps, posts⟩
  | (attempt, backoff) :: rest, sleeps, posts =>
    match respond attempt with
    | .response code content =>
      if 500 ≤ code ∧ code < 600 then
        llmRunAttempts respond hist1 rest (sleeps ++ backoff.toList) (posts + 1)
      else if 400 ≤ code then
        if attempt ≤ 2 then
          llmRunAttempts respond hist1 rest (sleeps ++ [backoff.getD 0]) (posts + 1)
        else ⟨some (ERROR_PLACEHOLDER, hist1), sleeps, posts + 1⟩
      else
        let reply := _postprocess_speech_style (pyStrip content)
        ⟨some (reply, hist1 ++ [⟨.assistant, reply⟩]), sleeps, posts + 1⟩
    | .exn =>
      if attempt ≤ 2 then
        llmRunAttempts respond hist1 rest (sleeps ++ [backoff.getD 0]) (posts + 1)
      else ⟨some (ERROR_PLACEHOLDER, hist1), sleeps, posts + 1⟩

/-- `generate_llm_response` (Open WebUI path, the default configuration):
the defensive history check, the append of the user prompt, then the
retry loop. -/
def generate_llm_response (respond : Nat → HttpOutcome)
    (prompt : String) (message_history : List Message) : LlmCallResult :=
  let hist0 :=
    if message_history = [] then init_conversation
    else if (message_history.head?.map Message.role) ≠ some Role.system then
      systemMessage :: message_history
    else message_history
  let hist1 := hist0 ++ [⟨.user, prompt⟩]
  llmRunAttempts respond hist1 llmAttempts [] 0

/-! ### app/conversation_manager.py -/

/-- `MAX_TURNS` as defined in `app/conversation_manager.py` (line 16).
Its comment reads "keep only the last 2 (user,assistant) pairs", and
`app/config.py` reads `MAX_TURNS` from the environment with default 2,
but the constant the dialog manager actually uses is the literal 3. -/
def MAX_TURNS : Nat := 3

/-- Python negative-index slice `l[-(k):]`: the last `k` elements, the
whole list when `k = 0` or `k ≥ len(l)`. -/
def pySliceLast (l : List Message) (k : Nat) : List Message :=
  if k = 0 then l else l.drop (l.length - k)

/-- `_trim_history` from `app/conversation_manager.py`:
`system = hist[0:1]`, `tail = hist[-(max_turns * 2):] if len(hist) > 1
else []`, result `system + tail`. -/
def _trim_history (hist : List Message) (max_turns : Nat) : List Message :=
  if hist = [] then []
  else
    let system := hist.take 1
    let tail := if 1 < hist.length then pySliceLast hist (max_turns * 2) else []
    system ++ tail

/-- History effect of one successful dialog turn in `handle_phrase`:
`generate_llm_response` appends the user prompt and the assistant reply to
the shared history, `handle_phrase` replaces `message_history` with the
returned copy and applies `_trim_history(message_history, MAX_TURNS)`. -/
def handle_phrase_history (hist : List Message) (prompt reply : String) :
    List Message :=
  _trim_history (hist ++ [⟨.user, prompt⟩, ⟨.assistant, reply⟩]) MAX_TURNS

/-! ### app/transcript_manager.py -/

/-- `append_transcript_line` from `app/transcript_manager.py`: return
unchanged when `text is None`; otherwise strip, return unchanged when the
result is falsy, else append the formatted line.  `ts` is the
`datetime.now()` timestamp string. -/
def append_transcript_line (lines : List String) (role : String)
    (text : Option String) (ts : String) : List String :=
  match text with
  | none => lines
  | some txt =>
    let t := pyStrip txt
    if t = "" then lines
    else lines ++ ["[" ++ ts ++ "] " ++ role ++ ": " ++ t]

/-- `write_transcript` from `app/transcript_manager.py`: the file content
written on success, one buffered line plus a newline each, in order. -/
def write_transcript (lines : List String) : String :=
  String.join (lines.map (fun l => l ++ "\n"))

/-- The transcript buffer produced by a sequence of
`append_transcript_line(role, text)` calls (with their timestamps),
starting from the empty buffer of a fresh run. -/
def transcriptRun (events : List (String × Option String × String)) :
    List String :=
  events.foldl (fun lines e => append_transcript_line lines e.1 e.2.1 e.2.2) []

/-- Shape of a transcript line: a bracketed timestamp, the role, a colon
and a non-empty stripped text. -/
def IsTranscriptLine (line : String) : Prop :=
  ∃ ts role t, t ≠ "" ∧ line = "[" ++ ts ++ "] " ++ role ++ ": " ++ t

/-! ### app/queues.py — assistant-playback / silence clock -/

structure PlaybackClock where
  assistant_playing : Bool
  playback_pause_accumulator : ℚ
  playback_pause_start : ℚ
  deriving Repr, DecidableEq

/-- `start_assistant_playing` from `app/queues.py`. -/
def start_assistant_playing (now : ℚ) (s : PlaybackClock) : PlaybackClock :=
  if s.assistant_playing then s
  else ⟨true, s.playback_pause_accumulator, now⟩

/-- `stop_assistant_playing` from `app/queues.py`. -/
def stop_assistant_playing (now : ℚ) (s : PlaybackClock) : PlaybackClock :=
  if s.assistant_playing then
    ⟨false, s.playback_pause_accumulator + (now - s.playback_pause_start), 0⟩
  else s

/-- `reset_playback_pause_accumulator` from `app/queues.py`, called on
detected caller speech. -/
def reset_playback_pause_accumulator (now : ℚ) (s : PlaybackClock) :
    PlaybackClock :=
  ⟨s.assistant_playing, 0, if s.assistant_playing then now else 0⟩

/-- `get_playback_pause_since_reset` from `app/queues.py`; the source
guards the in-progress term by the truthiness of `_playback_pause_start`,
hence the `≠ 0` test. -/
def get_playback_pause_since_reset (now : ℚ) (s : PlaybackClock) : ℚ :=
  s.playback_pause_accumulator +
    (if s.assistant_playing ∧ s.playback_pause_start ≠ 0 then
       now - s.playback_pause_start
     else 0)

/-- Effective caller silence as computed by the watchdog in
`src/main.py`: `max(0.0, raw_silent_for - pause)` with
`raw_silent_for = now - last_speech`. -/
def effective_silence (now last_speech : ℚ) (clock : PlaybackClock) : ℚ :=
  max 0 (now - last_speech - get_playback_pause_since_reset now clock)

/-! ### app/config.py — static phrases -/

def GREETING_TEXT : String :=
  "..Hello Edward, this is Cody's AI Assistant. " ++
  "My name is Alice. How are you doing today?"

def REMINDER_TEXT : String := "Hello? Are you still there?"

def GOODBYE_TEXT : String := "Goodbye."

/-! ### app/twilio_stream_handler.py — player jobs, external queue
payloads and the player loop -/

/-- A payload on `llm_playback_queue` or `tts_requests_queue`: Python
`None`, a bare string, or an enriched dict with optional `mp3_path` and
`text` entries. -/
inductive QueueItem
  | pyNone
  | str (s : String)
  | dict (mp3_path : Option String) (text : Option String)
  deriving Repr, DecidableEq

/-- `PlayerJob` from `app/twilio_stream_handler.py`. -/
structure PlayerJob where
  kind : String
  value : String
  generation : Nat
  transcript_text : Option String := none
  deriving Repr, DecidableEq

/-- `_normalize_tts_item`: a bare string is returned as is; a dict yields
its `text` entry when that is a string with non-blank content. -/
def _normalize_tts_item : QueueItem → Option String
  | .pyNone => none
  | .str s => some s
  | .dict _ t =>
    match t with
    | some s => if pyStrip s ≠ "" then some s else none
    | none => none

/-- `_normalize_mp3_item`: `(mp3_path, text)`, each present only when a
non-blank string. -/
def _normalize_mp3_item : QueueItem → Option String × Option String
  | .pyNone => (none, none)
  | .str s => (some s, none)
  | .dict p t =>
    let mp3_path := match p with
      | some s => if pyStrip s ≠ "" then some s else none
      | none => none
    let text := match t with
      | some s => if pyStrip s ≠ "" then some s else none
      | none => none
    (mp3_path, text)

/-- Conversion an `llm_playback_queue` payload undergoes in the `media`
branch of `receiver_loop` (non-streaming path, lines 509-515): when a
path is present a `PlayerJob` of kind `mp3` is enqueued with the current
generation and `transcript_text` equal to the normalised `text`. -/
def mkMp3Job (item : QueueItem) (generation : Nat) : Option PlayerJob :=
  let (mp3_path, text) := _normalize_mp3_item item
  match mp3_path with
  | some p => some ⟨"mp3", p, generation, text⟩
  | none => none

/-- The bare-string payload the silence watchdog in `src/main.py` puts on
`llm_playback_queue` for the reminder prompt
(`await llm_playback_queue.put(reminder_path)`). -/
def watchdogReminderItem : QueueItem := .str "app/audio_static/reminder.mp3"

/-- The bare-string payload the watchdog puts for the goodbye prompt. -/
def watchdogGoodbyeItem : QueueItem := .str "app/audio_static/goodbye.mp3"

def PLAYBACK_CLEAR_AFTER_END : Bool := true

/-- Per-call player/session state touched by `player_loop`: the
generation counter, the internal job queue, the two external assistant
queues, the number of `clear` control events sent, and the transcript
buffer. -/
structure SessionState where
  generation : Nat
  player_queue : List PlayerJob
  tts_queue : List QueueItem
  mp3_queue : List QueueItem
  clears : Nat
  transcript : List String
  deriving Repr, DecidableEq

/-- `_player_stream_frames` on a resolved frame list: before each send,
`_should_stop()` checks the shutdown event, the barge-in event and a
generation mismatch; `barge k` is the state of the barge-in event as
observed by the check performed after `k` frames have been sent.  Returns
the number of frames sent and the `completed` flag. -/
def player_stream_frames (shutdown : Bool) (barge : Nat → Bool)
    (jobGen curGen : Nat) : List String → Nat → Nat × Bool
  | [], sent => (sent, true)
  | _f :: rest, sent =>
    if shutdown ∨ barge sent ∨ jobGen ≠ curGen then (sent, false)
    else player_stream_frames shutdown barge jobGen curGen rest (sent + 1)

/-- One `player_loop` iteration on a dequeued job whose frames resolve to
`frames`, for a session with an established `stream_sid`.  Stale jobs are
dropped; an interrupted run (not completed and the barge-in event set)
writes the `[interrupted]` transcript line when text was present,
increments the generation, drains the internal player queue and both
external queues, and sends exactly one `clear`; a completed run writes the
transcript line from `transcript_text` and, under
`PLAYBACK_CLEAR_AFTER_END`, sends one `clear`.  Returns the new state and
the number of frames sent. -/
def player_handle_job (shutdown : Bool) (barge : Nat → Bool)
    (frames : List String) (job : PlayerJob) (ts : String)
    (st : SessionState) : SessionState × Nat :=
  if job.generation ≠ st.generation then (st, 0)
  else
    let (sent, completed) :=
      player_stream_frames shutdown barge job.generation st.generation frames 0
    if ¬completed ∧ barge sent then
      let transcript :=
        match job.transcript_text with
        | some t =>
          if t ≠ "" then
            append_transcript_line st.transcript "Assistant" (some (t ++ " [interrupted]")) ts
          else st.transcript
        | none => st.transcript
      ({ generation := st.generation + 1, player_queue := [], tts_queue := [],
         mp3_queue := [], clears := st.clears + 1, transcript := transcript }, sent)
    else
      let transcript :=
        if completed then
          match job.transcript_text with
          | some t =>
            if t ≠ "" then append_transcript_line st.transcript "Assistant" (some t) ts
            else st.transcript
          | none => st.transcript
        else st.transcript
      let clears :=
        if completed ∧ PLAYBACK_CLEAR_AFTER_END then st.clears + 1 else st.clears
      ({ st with transcript := transcript, clears := clears }, sent)

/-! ### app/twilio_stream_handler.py — VAD and phrase segmentation

The `media` branch of `receiver_loop`, lines 519-604.  The μ-law payload
of a frame is 160 bytes, hence 320 bytes of linear PCM16; only the PCM
byte counts reach the control flow, so buffers are modelled by their
lengths.  `uuid.uuid4()` is modelled by a fresh-number supply
(`next_phrase`).  The VAD thresholds and limits are environment-derived
constants of the session; the theorems below hold for every value of
them, so they are kept as parameters. -/

structure VadParams where
  minRms : ℚ
  bargeThreshold : ℚ
  bargeConsec : Nat
  silenceLimit : Nat
  doneLimit : Nat
  minChunkBytes : Nat
  leadInBytes : Nat
  deriving Repr, DecidableEq

/-- One inbound `media` frame as the VAD sees it: its RMS and whether
`playback_active` was set when it arrived. -/
structure FrameIn where
  rms : ℚ
  playback_active : Bool
  deriving Repr, DecidableEq

structure VadState where
  phrase_id : Nat
  next_phrase : Nat
  chunk_index : Nat
  active_pcm : Nat
  pre_buffer : Nat
  silence_counter : Nat
  phrase_silence_counter : Nat
  in_chunk : Bool
  has_spoken : Bool
  barge_in_hits : Nat
  barge_in_event : Bool
  phrases : List PhraseObject
  deriving Repr, DecidableEq

/-- `detected_phrases` update on chunk emission (lines 585-587): create
the `PhraseObject` when absent, then append the chunk. -/
def addChunkToPhrases (ps : List PhraseObject) (pid : Nat) (c : AudioChunk) :
    List PhraseObject :=
  if (ps.find? (fun q => q.phrase_id == pid)).isSome then
    ps.map (fun q =>
      if q.phrase_id == pid then { q with chunks := q.chunks ++ [c] } else q)
  else ps ++ [⟨pid, [c], false⟩]

/-- Barge-in detection of the `media` branch (lines 519-536): while
`playback_active`, count consecutive loud frames; on reaching the limit
set the barge-in event, zero the counter and run
`_reset_vad_state_for_new_phrase` (which does not touch
`chunk_index`). -/
def vadBarge (p : VadParams) (s : VadState) (f : FrameIn) : VadState :=
  if f.playback_active then
    let hits := if f.rms ≥ p.bargeThreshold then s.barge_in_hits + 1 else 0
    if hits ≥ max 1 p.bargeConsec then
      { s with barge_in_event := true, barge_in_hits := 0,
               phrase_id := s.next_phrase, next_phrase := s.next_phrase + 1,
               silence_counter := 0, phrase_silence_counter := 0,
               in_chunk := false, has_spoken := false,
               active_pcm := 0, pre_buffer := 0 }
    else { s with barge_in_hits := hits }
  else s

/-- `pre_chunk_pcm_buffer.extend(pcm)` (line 542): a byte deque with
`maxlen = lead_in_bytes`, modelled by its length. -/
def vadPre (p : VadParams) (s : VadState) : VadState :=
  { s with pre_buffer := min (s.pre_buffer + 320) p.leadInBytes }

/-- Chunk start (lines 544-554): on speech outside a chunk, optionally
rotate the phrase id after a long silence, then open the chunk, flushing
the pre-roll into `active_pcm`. -/
def vadStart (p : VadParams) (s : VadState) (f : FrameIn) : VadState :=
  if ¬s.in_chunk ∧ p.minRms ≤ f.rms then
    let s1 :=
      if s.has_spoken ∧ p.doneLimit ≤ s.phrase_silence_counter then
        { s with phrase_id := s.next_phrase, next_phrase := s.next_phrase + 1 }
      else s
    { s1 with has_spoken := true, in_chunk := true, silence_counter := 0,
              phrase_silence_counter := 0,
              active_pcm := s1.active_pcm + s1.pre_buffer, pre_buffer := 0 }
  else s

/-- In-chunk bookkeeping with chunk emission (lines 556-593) and
end-of-phrase detection (lines 595-602). -/
def vadMain (p : VadParams) (s : VadState) (f : FrameIn) :
    VadState × Option AudioChunk :=
  if s.in_chunk then
    let s1 := { s with active_pcm := s.active_pcm + 320 }
    let s2 :=
      if f.rms < p.minRms then
        { s1 with silence_counter := s1.silence_counter + 1,
                  phrase_silence_counter := s1.phrase_silence_counter + 1 }
      else { s1 with silence_counter := 0, phrase_silence_counter := 0 }
    if p.silenceLimit ≤ s2.silence_counter then
      let (s3, emitted) :=
        if p.minChunkBytes ≤ s2.active_pcm then
          let chunk : AudioChunk :=
            { phrase_id := s2.phrase_id, chunk_index := s2.chunk_index,
              audio_len := s2.active_pcm, rms := f.rms,
              timestamp := (s2.chunk_index : ℚ) * (1 / 50),
              duration := (s2.active_pcm : ℚ) / 16000,
              transcription := "", capture_state := "listening",
              is_transcribed := false }
          ({ s2 with phrases := addChunkToPhrases s2.phrases s2.phrase_id chunk },
           some chunk)
        else (s2, none)
      ({ s3 with active_pcm := 0, silence_counter := 0, in_chunk := false },
       emitted)
    else (s2, none)
  else
    let s1 :=
      if f.rms < p.minRms then
        let s2 := { s with phrase_silence_counter := s.phrase_silence_counter + 1 }
        if s2.phrase_silence_counter = p.doneLimit ∧ s2.has_spoken then
          { s2 with has_spoken := false,
                    phrase_id := s2.next_phrase, next_phrase := s2.next_phrase + 1 }
        else s2
      else s
    (s1, none)

/-- Processing of one `media` frame (lines 519-604): barge-in detection
with VAD reset, pre-roll buffering, chunk start, in-chunk bookkeeping with
chunk emission, end-of-phrase detection, and the final unconditional
`chunk_index += 1`.  Returns the new state and the emitted chunk, if any;
an emitted chunk is put on `ready_chunks` and `transcription_queue` and
appended to its phrase. -/
def vadStep (p : VadParams) (s : VadState) (f : FrameIn) :
    VadState × Option AudioChunk :=
  let r := vadMain p (vadStart p (vadPre p (vadBarge p s f)) f) f
  ({ r.1 with chunk_index := r.1.chunk_index + 1 }, r.2)

/-- Run the segmenter over a frame sequence, collecting emitted chunks in
emission order. -/
def vadRun (p : VadParams) (s : VadState) :
    List FrameIn → VadState × List AudioChunk
  | [] => (s, [])
  | f :: fs =>
    let (s1, emitted) := vadStep p s f
    let (s2, chunks) := vadRun p s1 fs
    (s2, emitted.toList ++ chunks)

/-- Session-start VAD state of `media_stream`. -/
def vadInit : VadState :=
  { phrase_id := 0, next_phrase := 1, chunk_index := 0, active_pcm := 0,
    pre_buffer := 0, silence_counter := 0, phrase_silence_counter := 0,
    in_chunk := false, has_spoken := false, barge_in_hits := 0,
    barge_in_event := false, phrases := [] }

/-! ## Concrete scenarios used by the evaluation theorems -/

/-- A freshly emitted chunk as built at
`app/twilio_stream_handler.py:572-581`: empty transcription,
`is_transcribed = false`. -/
def c1Chunk : AudioChunk :=
  { phrase_id := 0, chunk_index := 0, audio_len := 16000, rms := 800,
    timestamp := 0, duration := 1, transcription := "",
    capture_state := "listening", is_transcribed := false }

/-- State of the transcription loop just after the chunk was emitted:
nothing processed, one phrase holding the chunk. -/
def c1Start : WhisperState :=
  { processed := [], phrases := [⟨0, [c1Chunk], false⟩], handled := [] }

/-- A two-chunk phrase as emitted by the segmenter. -/
def c2Phrase : PhraseObject :=
  ⟨1, [{ phrase_id := 1, chunk_index := 4, audio_len := 16000, rms := 800,
         timestamp := 0, duration := 1, transcription := "",
         capture_state := "listening", is_transcribed := false },
      { phrase_id := 1, chunk_index := 9, audio_len := 16000, rms := 900,
         timestamp := 1, duration := 1, transcription := "",
         capture_state := "listening", is_transcribed := false }], false⟩

def c2Start : WhisperState :=
  { processed := [], phrases := [c2Phrase], handled := [] }

/-- A reply job sitting in the player queue behind the playing job. -/
def c5PendingJob : PlayerJob := ⟨"mp3", "x.mp3", 0, some "queued reply"⟩

/-- Session state while the greeting is playing with one queued job. -/
def c5State : SessionState := ⟨0, [c5PendingJob], [], [], 0, []⟩

/-- The greeting job being played. -/
def c5Greeting : PlayerJob := ⟨"mp3", "greeting.mp3", 0, some GREETING_TEXT⟩

/-- VAD parameters for a short concrete session: threshold 750, barge-in
threshold 938, 2 consecutive barge frames, chunk-closing silence of 2
frames, phrase-closing silence of 4 frames, minimum chunk of 320 bytes,
pre-roll of 640 bytes. -/
def c10Params : VadParams := ⟨750, 938, 2, 2, 4, 320, 640⟩

/-- Two speech bursts separated by short silences: the segmenter emits
two chunks of one phrase, at frames 3 and 6. -/
def c10Frames : List FrameIn :=
  [⟨800, false⟩, ⟨800, false⟩, ⟨0, false⟩, ⟨0, false⟩, ⟨800, false⟩,
   ⟨0, false⟩, ⟨0, false⟩]

/-- Transcription-loop state holding the phrases produced by that
session, with nothing processed yet. -/
def c10Store : WhisperState :=
  ⟨[], (vadRun c10Params vadInit c10Frames).1.phrases, []⟩

/-- The queue history: exactly the emitted chunks, in order. -/
def c10Refs : List (Nat × Nat) :=
  (vadRun c10Params vadInit c10Frames).2.map (fun c => (c.phrase_id, c.chunk_index))

/-! ## Helper lemmas -/

/-- Characters of `replaceChar t r l` are `r` or characters of `l`. -/
theorem mem_replaceChar {c t r : Char} {l : List Char}
    (h : c ∈ replaceChar t r l) : c = r ∨ c ∈ l := by
  simp only [replaceChar, List.mem_map] at h
  obtain ⟨a, ha, hc⟩ := h
  by_cases hat : a = t
  · subst hat
    simp only [if_pos rfl] at hc
    exact Or.inl hc.symm
  · simp only [if_neg hat] at hc
    exact Or.inr (hc ▸ ha)

/-- `replaceChar t r` eliminates every occurrence of `t` when `t ≠ r`. -/
theorem not_mem_replaceChar_self {t r : Char} (h : t ≠ r) (l : List Char) :
    t ∉ replaceChar t r l := by
  intro hmem
  simp only [replaceChar, List.mem_map] at hmem
  obtain ⟨a, _, hc⟩ := hmem
  by_cases hat : a = t
  · simp only [if_pos hat] at hc
    exact h hc.symm
  · simp only [if_neg hat] at hc
    exact hat hc

/-- Characters of `replaceEg l` come from `l` or from the replacement
text. -/
theorem mem_replaceEg {c : Char} :
    ∀ l : List Char, c ∈ replaceEg l → c ∈ l ∨ c ∈ "for example".toList := by
  intro l
  induction l using replaceEg.induct with
  | case1 rest ih =>
    intro h
    rw [replaceEg] at h
    rcases List.mem_append.1 h with h' | h'
    · exact Or.inr h'
    · rcases ih h' with h'' | h''
      · exact Or.inl (by simp [h''])
      · exact Or.inr h''
  | case2 a as hne ih =>
    intro h
    rw [replaceEg] at h
    case x_1 => exact hne
    rcases List.mem_cons.1 h with h' | h'
    · exact Or.inl (by simp [h'])
    · rcases ih h' with h'' | h''
      · exact Or.inl (List.mem_cons_of_mem _ h'')
      · exact Or.inr h''
  | case3 =>
    intro h
    rw [replaceEg] at h
    exact absurd h (List.not_mem_nil c)

/-- Characters of `procRuns f run l` are spaces or characters of `run`
or of `l`, whenever `f` only ever produces spaces or characters of its
argument. -/
theorem mem_procRuns {f : List Char → List Char}
    (hf : ∀ r c, c ∈ f r → c = ' ' ∨ c ∈ r) :
    ∀ (l run : List Char) (c : Char),
      c ∈ procRuns f run l → c = ' ' ∨ c ∈ run ∨ c ∈ l := by
  intro l
  induction l with
  | nil =>
    intro run c h
    rw [procRuns] at h
    rcases hf _ _ h with h' | h'
    · exact Or.inl h'
    · exact Or.inr (Or.inl (List.mem_reverse.1 h'))
  | cons a as ih =>
    intro run c h
    rw [procRuns] at h
    by_cases ha : isPySpace a
    · simp only [if_pos ha] at h
      rcases ih (a :: run) c h with h' | h' | h'
      · exact Or.inl h'
      · rcases List.mem_cons.1 h' with h'' | h''
        · exact Or.inr (Or.inr (by simp [h'']))
        · exact Or.inr (Or.inl h'')
      · exact Or.inr (Or.inr (List.mem_cons_of_mem _ h'))
    · simp only [if_neg ha] at h
      rcases List.mem_append.1 h with h' | h'
      · rcases hf _ _ h' with h'' | h''
        · exact Or.inl h''
        · exact Or.inr (Or.inl (List.mem_reverse.1 h''))
      · rcases List.mem_cons.1 h' with h'' | h''
        · exact Or.inr (Or.inr (by simp [h'']))
        · rcases ih [] c h'' with h3 | h3 | h3
          · exact Or.inl h3
          · exact absurd h3 (List.not_mem_nil c)
          · exact Or.inr (Or.inr (List.mem_cons_of_mem _ h3))

/-- Characters survive `pyStripL` only if present in the input. -/
theorem mem_pyStripL {c : Char} {l : List Char} (h : c ∈ pyStripL l) :
    c ∈ l := by
  simp only [pyStripL, List.mem_reverse] at h
  exact (List.dropWhile_sublist _).subset
    (List.mem_reverse.1 ((List.dropWhile_sublist _).subset h))

/-- Characters of the parts produced by `splitSentRun` come from the
pending part of the mode or from the input. -/
theorem mem_splitSentRun :
    ∀ (l : List Char) (mode : SplitMode) (part : List Char) (c : Char),
      part ∈ splitSentRun mode l → c ∈ part →
      (∃ prev cur, mode = .part prev cur ∧ c ∈ cur) ∨ c ∈ l := by
  intro l
  induction l with
  | nil =>
    intro mode part c hp hc
    cases mode with
    | part prev cur =>
      rw [splitSentRun] at hp
      rcases List.mem_cons.1 hp with h | h
      · exact Or.inl ⟨prev, cur, rfl, List.mem_reverse.1 (h ▸ hc)⟩
      · exact absurd h (List.not_mem_nil part)
    | gap =>
      rw [splitSentRun] at hp
      rcases List.mem_cons.1 hp with h | h
      · exact absurd (h ▸ hc) (List.not_mem_nil c)
      · exact absurd h (List.not_mem_nil part)
  | cons a as ih =>
    intro mode part c hp hc
    cases mode with
    | part prev cur =>
      rw [splitSentRun] at hp
      by_cases hcond : isPySpace a ∧ prev.elim false (fun p => isSentTerm p)
      · simp only [if_pos hcond] at hp
        rcases List.mem_cons.1 hp with h | h
        · exact Or.inl ⟨prev, cur, rfl, List.mem_reverse.1 (h ▸ hc)⟩
        · rcases ih .gap part c h hc with h' | h'
          · obtain ⟨p', c', heq, _⟩ := h'
            exact absurd heq (by simp)
          · exact Or.inr (List.mem_cons_of_mem _ h')
      · simp only [if_neg hcond] at hp
        rcases ih (.part (some a) (a :: cur)) part c hp hc with h' | h'
        · obtain ⟨p', c', heq, hin⟩ := h'
          injection heq with h1 h2
          subst h2
          rcases List.mem_cons.1 hin with h'' | h''
          · exact Or.inr (by simp [h''])
          · exact Or.inl ⟨prev, cur, rfl, h''⟩
        · exact Or.inr (List.mem_cons_of_mem _ h')
    | gap =>
      rw [splitSentRun] at hp
      by_cases ha : isPySpace a
      · simp only [if_pos ha] at hp
        rcases ih .gap part c hp hc with h' | h'
        · obtain ⟨p', c', heq, _⟩ := h'
          exact absurd heq (by simp)
        · exact Or.inr (List.mem_cons_of_mem _ h')
      · simp only [if_neg ha] at hp
        rcases ih (.part (some a) [a]) part c hp hc with h' | h'
        · obtain ⟨p', c', heq, hin⟩ := h'
          injection heq with h1 h2
          subst h2
          rcases List.mem_cons.1 hin with h'' | h''
          · exact Or.inr (by simp [h''])
          · exact absurd h'' (List.not_mem_nil c)
        · exact Or.inr (List.mem_cons_of_mem _ h')

/-- Characters of `joinWithSpace parts` are spaces or characters of some
part. -/
theorem mem_joinWithSpace {c : Char} :
    ∀ parts : List (List Char), c ∈ joinWithSpace parts →
      c = ' ' ∨ ∃ p ∈ parts, c ∈ p := by
  intro parts
  induction parts with
  | nil =>
    intro h
    rw [joinWithSpace] at h
    exact absurd h (List.not_mem_nil c)
  | cons p ps ih =>
    intro h
    cases ps with
    | nil =>
      rw [joinWithSpace] at h
      exact Or.inr ⟨p, by simp, h⟩
    | cons q qs =>
      rw [joinWithSpace] at h
      case x_1 => intro hq; exact List.noConfusion hq
      rcases List.mem_append.1 h with h' | h'
      · exact Or.inr ⟨p, by simp, h'⟩
      · rcases List.mem_cons.1 h' with h'' | h''
        · exact Or.inl h''
        · rcases ih h'' with h3 | h3
          · exact Or.inl h3
          · obtain ⟨r, hr, hcr⟩ := h3
            exact Or.inr ⟨r, List.mem_cons_of_mem _ hr, hcr⟩

/-- Characters of `speechStyleT9 l` are spaces, characters of `l`, or
characters of the `e.g.` replacement text. -/
theorem mem_speechStyleT9 {c : Char} {l : List Char}
    (h : c ∈ speechStyleT9 l) :
    c = ' ' ∨ c ∈ l ∨ c ∈ "for example".toList := by
  have hfNl : ∀ (r : List Char) (c : Char),
      c ∈ (if r.contains '\n' then [' '] else r) → c = ' ' ∨ c ∈ r := by
    intro r c h
    by_cases hr : r.contains '\n'
    · simp only [if_pos hr, List.mem_singleton] at h
      exact Or.inl h
    · simp only [if_neg hr] at h
      exact Or.inr h
  have hfSp : ∀ (r : List Char) (c : Char),
      c ∈ (if 2 ≤ r.length then [' '] else r) → c = ' ' ∨ c ∈ r := by
    intro r c h
    by_cases hr : 2 ≤ r.length
    · simp only [if_pos hr, List.mem_singleton] at h
      exact Or.inl h
    · simp only [if_neg hr] at h
      exact Or.inr h
  have h9 := mem_pyStripL h
  rcases mem_procRuns hfSp _ _ _ h9 with h' | h' | h'
  · exact Or.inl h'
  · exact absurd h' (List.not_mem_nil c)
  · rcases mem_procRuns hfNl _ _ _ h' with h'' | h'' | h''
    · exact Or.inl h''
    · exact absurd h'' (List.not_mem_nil c)
    · rcases mem_replaceEg _ h'' with h3 | h3
      · exact Or.inr (Or.inl h3)
      · exact Or.inr (Or.inr h3)

/-- A character other than a space and absent from `l` and from the
`e.g.` replacement text does not occur in `speechStyleTail l`. -/
theorem not_mem_speechStyleTail {d : Char} (hsp : d ≠ ' ')
    (hfe : d ∉ "for example".toList) {l : List Char} (hl : d ∉ l) :
    d ∉ speechStyleTail l := by
  intro hmem
  have hT9 : d ∉ speechStyleT9 l := by
    intro h9
    rcases mem_speechStyleT9 h9 with h | h | h
    · exact hsp h
    · exact hl h
    · exact hfe h
  rw [speechStyleTail] at hmem
  by_cases hlen : 3 < (splitSentences (speechStyleT9 l)).length
  · simp only [if_pos hlen] at hmem
    have hj := mem_pyStripL hmem
    rcases mem_joinWithSpace _ hj with h | ⟨p, hp, hdp⟩
    · exact hsp h
    · have hp' : p ∈ splitSentences (speechStyleT9 l) :=
        List.take_subset 3 _ hp
      rcases mem_splitSentRun _ _ _ _ hp' hdp with ⟨prev, cur, heq, hin⟩ | h'
      · injection heq with h1 h2
        subst h2
        exact absurd hin (List.not_mem_nil d)
      · exact hT9 h'
  · simp only [if_neg hlen] at hmem
    exact hT9 hmem

/-- A non-space character absent from the input stays absent through a
space-replacement step. -/
theorem not_mem_replaceChar_preserve {d t : Char} (hd : d ≠ ' ')
    {l : List Char} (h : d ∉ l) : d ∉ replaceChar t ' ' l := by
  intro hm
  rcases mem_replaceChar hm with he | he
  · exact hd he
  · exact h he

/-- When the barge-in signal goes up during the send of frame `i`
(1-indexed) — so that the stop-check observes it from the point where `i`
frames have been sent onwards — and the job has more than `i` frames, the
streamer stops with exactly `i` frames sent and `completed = false`. -/
theorem player_stream_frames_barge_eq (i g : Nat) :
    ∀ (l : List String) (s : Nat), s ≤ i → i < s + l.length →
      player_stream_frames false (fun k => decide (i ≤ k)) g g l s = (i, false) := by
  intro l
  induction l with
  | nil =>
    intro s hs hi
    simp only [List.length_nil, Nat.add_zero] at hi
    omega
  | cons f rest ih =>
    intro s hs hi
    rw [player_stream_frames]
    by_cases hcase : i ≤ s
    · have hsi : s = i := Nat.le_antisymm hs hcase
      subst hsi
      simp
    · have h1 : s + 1 ≤ i := by omega
      have h2 : i < (s + 1) + rest.length := by
        simp only [List.length_cons] at hi
        omega
      rw [if_neg]
      · exact ih (s + 1) h1 h2
      · simp [hcase]

/-- Barge-in handling never touches the frame counter. -/
theorem vadBarge_chunk_index (p : VadParams) (s : VadState) (f : FrameIn) :
    (vadBarge p s f).chunk_index = s.chunk_index := by
  unfold vadBarge
  dsimp only
  split_ifs <;> rfl

/-- Pre-roll buffering never touches the frame counter. -/
theorem vadPre_chunk_index (p : VadParams) (s : VadState) :
    (vadPre p s).chunk_index = s.chunk_index := rfl

/-- Chunk start never touches the frame counter. -/
theorem vadStart_chunk_index (p : VadParams) (s : VadState) (f : FrameIn) :
    (vadStart p s f).chunk_index = s.chunk_index := by
  unfold vadStart
  dsimp only
  split_ifs <;> rfl

/-- The in-chunk phase never touches the frame counter, and a chunk it
emits is stamped with the current frame counter. -/
theorem vadMain_chunk_index (p : VadParams) (s : VadState) (f : FrameIn) :
    (vadMain p s f).1.chunk_index = s.chunk_index ∧
    ∀ c ∈ (vadMain p s f).2, c.chunk_index = s.chunk_index := by
  unfold vadMain
  dsimp only
  split_ifs <;> simp [Option.mem_def]

/-- One frame advances the counter by one and stamps an emitted chunk
with the pre-increment counter value. -/
theorem vadStep_chunk_index (p : VadParams) (s : VadState) (f : FrameIn) :
    (vadStep p s f).1.chunk_index = s.chunk_index + 1 ∧
    ∀ c ∈ (vadStep p s f).2, c.chunk_index = s.chunk_index := by
  have hb := vadBarge_chunk_index p s f
  have hp := vadPre_chunk_index p (vadBarge p s f)
  have hs := vadStart_chunk_index p (vadPre p (vadBarge p s f)) f
  have hm := vadMain_chunk_index p (vadStart p (vadPre p (vadBarge p s f)) f) f
  unfold vadStep
  dsimp only
  constructor
  · rw [hm.1, hs, hp, hb]
  · intro c hc
    rw [hm.2 c hc, hs, hp, hb]

/-- Chunks emitted over any frame sequence carry strictly increasing
`chunk_index` values, all at least the starting counter value. -/
theorem vadRun_indices_increasing (p : VadParams) :
    ∀ (frames : List FrameIn) (s : VadState),
      (∀ c ∈ (vadRun p s frames).2, s.chunk_index ≤ c.chunk_index) ∧
      ((vadRun p s frames).2.map AudioChunk.chunk_index).Pairwise (· < ·) := by
  intro frames
  induction frames with
  | nil =>
    intro s
    constructor
    · intro c hc
      exact absurd hc (List.not_mem_nil c)
    · simp [vadRun]
  | cons f fs ih =>
    intro s
    have hstep := vadStep_chunk_index p s f
    obtain ⟨ihlb, ihpw⟩ := ih (vadStep p s f).1
    have hrun : vadRun p s (f :: fs) =
        ((vadRun p (vadStep p s f).1 fs).1,
         (vadStep p s f).2.toList ++ (vadRun p (vadStep p s f).1 fs).2) := by
      rw [vadRun]
    rw [hrun]
    constructor
    · intro c hc
      rcases List.mem_append.1 hc with hmem | hmem
      · rcases hopt2 : (vadStep p s f).2 with _ | em
        · rw [hopt2] at hmem
          exact absurd hmem (List.not_mem_nil c)
        · rw [hopt2] at hmem
          rcases List.mem_singleton.1 hmem with rfl
          exact Nat.le_of_eq (hstep.2 c (by rw [hopt2]; rfl)).symm
      · calc s.chunk_index ≤ s.chunk_index + 1 := Nat.le_succ _
          _ = (vadStep p s f).1.chunk_index := hstep.1.symm
          _ ≤ c.chunk_index := ihlb c hmem
    · rcases hopt : (vadStep p s f).2 with _ | em
      · simpa using ihpw
      · have hlt : ∀ c ∈ (vadRun p (vadStep p s f).1 fs).2,
            em.chunk_index < c.chunk_index := by
          intro c hc
          have h1 : em.chunk_index = s.chunk_index := hstep.2 em (by rw [hopt]; rfl)
          have h2 : s.chunk_index + 1 ≤ c.chunk_index := by
            rw [← hstep.1]
            exact ihlb c hc
          omega
        simp only [hopt, Option.toList_some, List.singleton_append,
          List.map_cons, List.pairwise_cons]
        exact ⟨fun n hn => by
          obtain ⟨c, hc, rfl⟩ := List.mem_map.1 hn
          exact hlt c hc, ihpw⟩

/-- Setting the transcription of the chunk with index `idx` does not
change which chunk a lookup for a different index finds. -/
theorem findChunk_map_setTranscription (idx idx' : Nat) (t : String)
    (h : idx ≠ idx') :
    ∀ cs : List AudioChunk,
      (cs.map (fun c =>
          if c.chunk_index == idx then { c with transcription := t } else c)).find?
          (fun c => c.chunk_index == idx')
        = cs.find? (fun c => c.chunk_index == idx') := by
  intro cs
  induction cs with
  | nil => rfl
  | cons c cs ih =>
    have hsame : (if c.chunk_index == idx then { c with transcription := t }
        else c).chunk_index = c.chunk_index := by
      split <;> rfl
    simp only [List.map_cons, List.find?, hsame]
    cases hb : c.chunk_index == idx' with
    | true =>
      have hceq : c.chunk_index = idx' := by simpa using hb
      have hno : (c.chunk_index == idx) = false := by
        simp [hceq]
        exact fun he => h he.symm
      simp [hno]
    | false =>
      simp only [hb]
      exact ih

/-- A lookup is unchanged by mapping a function over the phrase map that
preserves phrase ids and the outcome of the inner chunk search. -/
theorem lookupChunk_map (idx' : Nat) (g : PhraseObject → PhraseObject)
    (hid : ∀ q, (g q).phrase_id = q.phrase_id)
    (hch : ∀ q, (g q).chunks.find? (fun c => c.chunk_index == idx')
      = q.chunks.find? (fun c => c.chunk_index == idx')) :
    ∀ (ps : List PhraseObject) (pid' : Nat),
      lookupChunk (ps.map g) pid' idx' = lookupChunk ps pid' idx' := by
  intro ps pid'
  induction ps with
  | nil => rfl
  | cons q qs ih =>
    simp only [lookupChunk, List.map_cons, List.find?, hid]
    by_cases hq : (q.phrase_id == pid') = true
    · simp [hq, hch]
    · simp only [hq, Bool.false_eq_true, if_false]
      exact ih

/-- Updating the transcription of chunk `(pid, idx)` does not change the
lookup of any chunk with a different index. -/
theorem lookupChunk_updateChunk_ne (ps : List PhraseObject)
    (pid idx pid' idx' : Nat) (t : String) (h : idx ≠ idx') :
    lookupChunk (updateChunk ps pid idx
        (fun c => { c with transcription := t })) pid' idx'
      = lookupChunk ps pid' idx' := by
  unfold updateChunk
  refine lookupChunk_map idx' _ ?_ ?_ ps pid'
  · intro q
    by_cases hq : (q.phrase_id == pid) = true <;> simp [hq]
  · intro q
    by_cases hq : (q.phrase_id == pid) = true
    · simp only [hq, if_true, if_pos]
      exact findChunk_map_setTranscription idx idx' t h q.chunks
    · simp [hq]

/-- Latching `is_done` does not change any chunk lookup. -/
theorem lookupChunk_setPhraseDone (ps : List PhraseObject)
    (pid pid' idx' : Nat) :
    lookupChunk (setPhraseDone ps pid) pid' idx' = lookupChunk ps pid' idx' := by
  unfold setPhraseDone
  refine lookupChunk_map idx' _ ?_ ?_ ps pid'
  · intro q
    by_cases hq : (q.phrase_id == pid) = true <;> simp [hq]
  · intro q
    by_cases hq : (q.phrase_id == pid) = true <;> simp [hq]

/-- A dequeued chunk with empty transcription and an index outside
`processed_chunks` is processed by the loop body: its index is added to
the set, and the lookup of every chunk with a different index is
unchanged. -/
theorem whisperStep_not_skipped (asr : Nat × Nat → String)
    (s : WhisperState) (r : Nat × Nat) (c : AudioChunk)
    (hc : lookupChunk s.phrases r.1 r.2 = some c) (ht : c.transcription = "")
    (hp : r.2 ∉ s.processed) :
    ((whisperStep asr s r).processed = r.2 :: s.processed) ∧
    (∀ pid' idx', idx' ≠ r.2 →
      lookupChunk (whisperStep asr s r).phrases pid' idx' =
        lookupChunk s.phrases pid' idx') := by
  unfold whisperStep
  rw [hc]
  dsimp only
  rw [if_neg (by simp [ht, hp])]
  cases hfind : (updateChunk s.phrases r.1 r.2
      (fun c => { c with transcription := asr r })).find?
      (fun p => p.phrase_id == r.1) with
  | none =>
    simp only [hfind]
    exact ⟨by trivial, fun pid' idx' hne =>
      lookupChunk_updateChunk_ne s.phrases r.1 r.2 pid' idx' (asr r)
        (fun he => hne he.symm)⟩
  | some phrase =>
    simp only [hfind]
    by_cases hd : phrase.is_complete ∧ ¬phrase.is_done
    · rw [if_pos hd]
      refine ⟨by trivial, fun pid' idx' hne => ?_⟩
      rw [lookupChunk_setPhraseDone]
      exact lookupChunk_updateChunk_ne s.phrases r.1 r.2 pid' idx' (asr r)
        (fun he => hne he.symm)
    · rw [if_neg hd]
      exact ⟨by trivial, fun pid' idx' hne =>
        lookupChunk_updateChunk_ne s.phrases r.1 r.2 pid' idx' (asr r)
          (fun he => hne he.symm)⟩

/-- The `processed_chunks` set only grows. -/
theorem whisperStep_processed_mono (asr : Nat × Nat → String)
    (s : WhisperState) (r : Nat × Nat) :
    ∀ x ∈ s.processed, x ∈ (whisperStep asr s r).processed := by
  unfold whisperStep
  cases hlk : lookupChunk s.phrases r.1 r.2 with
  | none => exact fun x hx => hx
  | some c =>
    show ∀ x ∈ s.processed, x ∈
      (if c.transcription ≠ "" ∨ r.2 ∈ s.processed then s
       else
         let phrases := updateChunk s.phrases r.1 r.2
           (fun c => { c with transcription := asr r })
         let s1 : WhisperState :=
           { s with phrases := phrases, processed := r.2 :: s.processed }
         match s1.phrases.find? (fun p => p.phrase_id == r.1) with
         | some phrase =>
           if phrase.is_complete ∧ ¬phrase.is_done then
             { s1 with phrases := setPhraseDone s1.phrases r.1,
                       handled := s1.handled ++ [r.1] }
           else s1
         | none => s1).processed
    by_cases hg : c.transcription ≠ "" ∨ r.2 ∈ s.processed
    · rw [if_pos hg]
      exact fun x hx => hx
    · rw [if_neg hg]
      cases hfind : (updateChunk s.phrases r.1 r.2
          (fun c => { c with transcription := asr r })).find?
          (fun p => p.phrase_id == r.1) with
      | none =>
        simp only [hfind]
        exact fun x hx => List.mem_cons_of_mem _ hx
      | some phrase =>
        simp only [hfind]
        by_cases hd : phrase.is_complete ∧ ¬phrase.is_done
        · rw [if_pos hd]
          exact fun x hx => List.mem_cons_of_mem _ hx
        · rw [if_neg hd]
          exact fun x hx => List.mem_cons_of_mem _ hx

/-- The `processed_chunks` set only grows over a whole run. -/
theorem whisperRun_processed_mono (asr : Nat × Nat → String) :
    ∀ (refs : List (Nat × Nat)) (s : WhisperState),
      ∀ x ∈ s.processed, x ∈ (whisperRun asr s refs).processed := by
  intro refs
  induction refs with
  | nil => exact fun s x hx => hx
  | cons r rest ih =>
    intro s x hx
    exact ih (whisperStep asr s r) x (whisperStep_processed_mono asr s r x hx)

/-! ## Theorems about the claims -/

/-! ### Claim C1 -/

/-- Claim C1 (code bug): after `whisper_transcription_loop` processes a
chunk (here the single chunk of phrase 0, with the ASR engine returning
"hello"), the loop has stored the transcription and recorded the index in
`processed_chunks`, yet the chunk's `is_transcribed` flag is still
`false` — the loop never assigns it, although `app/data_types.py:13`
documents that it is "set True once Whisper finishes" — and therefore the
fully processed phrase still fails `is_complete()`, contradicting the
claim that processing always sets `is_transcribed = true` and completes
the phrase. -/
theorem C1_processing_leaves_is_transcribed_false :
    ((lookupChunk (whisperRun (fun _ => "hello") c1Start [(0, 0)]).phrases 0 0).map
        AudioChunk.transcription = some "hello") ∧
    ((lookupChunk (whisperRun (fun _ => "hello") c1Start [(0, 0)]).phrases 0 0).map
        AudioChunk.is_transcribed = some false) ∧
    ((whisperRun (fun _ => "hello") c1Start [(0, 0)]).processed = [0]) ∧
    (((whisperRun (fun _ => "hello") c1Start [(0, 0)]).phrases.find?
        (fun p => p.phrase_id == 0)).map PhraseObject.is_complete = some false) := by
  decide

/-! ### Claim C2 -/

/-- Claim C2 (code bug): a full run of the transcription loop over both
chunks of a phrase (even with a duplicated delivery, which the
`processed_chunks` set absorbs) launches `handle_phrase` zero times, not
exactly once: the completion test `phrase.is_complete()` can never become
true because `is_transcribed` is never set, so `is_done` is never latched
and the Dialog Manager is never invoked. -/
theorem C2_handle_phrase_never_invoked :
    ((whisperRun (fun r => if r.2 = 4 then "hi" else "there") c2Start
        [(1, 4), (1, 9), (1, 4)]).handled = []) ∧
    ((whisperRun (fun r => if r.2 = 4 then "hi" else "there") c2Start
        [(1, 4), (1, 9), (1, 4)]).processed = [9, 4]) ∧
    (((whisperRun (fun r => if r.2 = 4 then "hi" else "there") c2Start
        [(1, 4), (1, 9), (1, 4)]).phrases.find?
        (fun p => p.phrase_id == 1)).map PhraseObject.is_done = some false) := by
  decide

/-! ### Claim C3 -/

/-- Claim C3 (code bug): the first completed dialog turn starting from
the initial history yields `[system, system, user, assistant]` — length
4, with the system message duplicated — because `_trim_history` takes the
last `max_turns * 2` elements of the whole history (which still contains
the leading system message) as the tail.  The claimed length
`1 + 2 * min(turns, MAX_TURNS)` would be 3, and the `MAX_TURNS` constant
the dialog manager uses is 3, not the claimed default 2 (its own comment
says "keep only the last 2 (user,assistant) pairs", and `app/config.py`
reads a default of 2 that `conversation_manager.py` ignores). -/
theorem C3_first_turn_history_length_four :
    (handle_phrase_history init_conversation "How are you?" "I am fine." =
      [systemMessage, systemMessage,
       ⟨Role.user, "How are you?"⟩, ⟨Role.assistant, "I am fine."⟩]) ∧
    ((handle_phrase_history init_conversation "How are you?" "I am fine.").length =
      4) ∧
    (4 ≠ 1 + 2 * min 1 2) ∧
    (MAX_TURNS = 3) := by
  exact ⟨rfl, rfl, by decide, rfl⟩

/-! ### Claim C4 -/

/-- Claim C4 (code bug): when every attempt of the Open WebUI path comes
back with HTTP 503, the function issues 3 POSTs (2 retries) and performs
the two backoff sleeps of 200 ms and 600 ms, but it then falls off the
end of the retry loop and returns `None` instead of the documented
`("[Error generating response]", history)` pair — the 5xx branch
`continue`s past `raise_for_status`, so the `except` branch that returns
the placeholder is never reached. -/
theorem C4_all_5xx_returns_none :
    ((generate_llm_response (fun _ => .response 503 "") "hello" init_conversation).posts
        = 3) ∧
    ((generate_llm_response (fun _ => .response 503 "") "hello" init_conversation).sleeps
        = [200, 600]) ∧
    ((generate_llm_response (fun _ => .response 503 "") "hello" init_conversation).result
        = none) ∧
    (∀ h : List Message,
      (generate_llm_response (fun _ => .response 503 "") "hello" init_conversation).result
        ≠ some (ERROR_PLACEHOLDER, h)) := by
  refine ⟨by decide, by decide, by decide, ?_⟩
  intro h
  simp [generate_llm_response, init_conversation, llmAttempts, llmRunAttempts]

/-! ### Claim C6 -/

/-- Claim C6 (code bug): the silence watchdog in `src/main.py` enqueues
the reminder and goodbye prompts as bare path strings, not as enriched
`mp3_path`/`text` dicts, so `_normalize_mp3_item` yields no text, the
`PlayerJob` built in `receiver_loop` carries `transcript_text = None`
rather than the canonical reminder string, and completing its playback
appends no Assistant transcript line. -/
theorem C6_watchdog_prompts_lack_transcript_text :
    (mkMp3Job watchdogReminderItem 0 =
      some ⟨"mp3", "app/audio_static/reminder.mp3", 0, none⟩) ∧
    ((mkMp3Job watchdogReminderItem 0).map PlayerJob.transcript_text ≠
      some (some REMINDER_TEXT)) ∧
    ((mkMp3Job watchdogGoodbyeItem 0).map PlayerJob.transcript_text = some none) ∧
    ((player_handle_job false (fun _ => false) ["f1"]
        ⟨"mp3", "app/audio_static/reminder.mp3", 0, none⟩ "TS"
        ⟨0, [], [], [], 0, []⟩).1.transcript = []) := by
  decide

/-! ### Claim C7 -/

/-- Claim C7 counterexample: the post-processing function is not
idempotent and its output can contain `e.g.` and more than three
sentence terminators.  On input `e.g..g.` the first pass rewrites the
leading occurrence of `e.g.` to `for example`, which recreates an
occurrence of `e.g.` across the boundary (`...ple.g.`), so a second pass
changes the string again; and on `a.b.c.d.` the three-sentence
truncation never fires, because the split pattern requires whitespace
after a terminator, leaving four terminators in the output. -/
theorem C7_normalize_counterexample :
    (_postprocess_speech_style (_postprocess_speech_style "e.g..g.") ≠
       _postprocess_speech_style "e.g..g.") ∧
    (_postprocess_speech_style "e.g..g." = "for example.g.") ∧
    ("e.g.".toList <:+: (_postprocess_speech_style "e.g..g.").toList) ∧
    ((_postprocess_speech_style "a.b.c.d.").toList.countP isSentTerm = 4) := by
  decide

/-- Claim C7 amended: for every input string, the output of
`_postprocess_speech_style` contains none of the characters `*`, `-`,
`•` and backquote (each is replaced by a space and no later step can
reintroduce one); the further claimed properties — idempotence, absence
of `e.g.` and at most three sentence terminators — do not hold, as the
counterexample shows. -/
theorem C7_output_free_of_decorative_glyphs (text : String) :
    '*' ∉ (_postprocess_speech_style text).toList ∧
    '-' ∉ (_postprocess_speech_style text).toList ∧
    '•' ∉ (_postprocess_speech_style text).toList ∧
    backquote ∉ (_postprocess_speech_style text).toList := by
  by_cases h0 : text = ""
  · subst h0
    refine ⟨?_, ?_, ?_, ?_⟩ <;> decide
  · have hout : (_postprocess_speech_style text).toList =
        speechStyleTail (replaceChar backquote ' ' (replaceChar '-' ' '
          (replaceChar '—' ' ' (replaceChar '*' ' '
            (replaceChar '•' ' ' (subListMarkers text.toList)))))) := by
      simp [_postprocess_speech_style, h0]
    rw [hout]
    refine ⟨?_, ?_, ?_, ?_⟩
    · exact not_mem_speechStyleTail (by decide) (by decide)
        (not_mem_replaceChar_preserve (by decide)
          (not_mem_replaceChar_preserve (by decide)
            (not_mem_replaceChar_preserve (by decide)
              (not_mem_replaceChar_self (by decide) _))))
    · exact not_mem_speechStyleTail (by decide) (by decide)
        (not_mem_replaceChar_preserve (by decide)
          (not_mem_replaceChar_self (by decide) _))
    · exact not_mem_speechStyleTail (by decide) (by decide)
        (not_mem_replaceChar_preserve (by decide)
          (not_mem_replaceChar_preserve (by decide)
            (not_mem_replaceChar_preserve (by decide)
              (not_mem_replaceChar_preserve (by decide)
                (not_mem_replaceChar_self (by decide) _)))))
    · exact not_mem_speechStyleTail (by decide) (by decide)
        (not_mem_replaceChar_self (by decide) _)

/-! ### Claim C5 -/

/-- Claim C5 counterexample: when the barge-in signal goes up while the
Player is sending frame `i = N` of an `N`-frame job (here the only frame
of a one-frame greeting, with the signal observed only by checks after
that send), the stream loop finishes with `completed = true`, so the
interrupted branch is skipped: the pending `PlayerJob` queued before the
trigger is NOT discarded and the generation counter is NOT incremented —
the claim, which quantifies over every frame index `i` of an `N`-frame
job, fails at `i = N`. -/
theorem C5_final_frame_barge_keeps_pending_jobs :
    ((player_handle_job false (fun k => decide (1 ≤ k)) ["frame1"]
        c5Greeting "TS" c5State).1.player_queue = [c5PendingJob]) ∧
    ((player_handle_job false (fun k => decide (1 ≤ k)) ["frame1"]
        c5Greeting "TS" c5State).1.generation = 0) ∧
    ((player_handle_job false (fun k => decide (1 ≤ k)) ["frame1"]
        c5Greeting "TS" c5State).2 = 1) := by
  decide

/-- Claim C5 amended: if the barge-in signal is raised while the Player
is sending frame `i` of an `N`-frame job **with `i < N`** (so that a
stop-check before some later frame observes it), then the Player sends at
most `i + 1` frames of that job, discards every `PlayerJob` pending in
the player queue and every payload in the upstream TTS and MP3 queues,
increments the generation counter, and sends exactly one `clear` control
event.  (When the signal arrives only during the final frame the job
instead completes normally, as the counterexample shows.) -/
theorem C5_barge_in_stops_discards_increments (frames : List String)
    (i : Nat) (job : PlayerJob) (ts : String) (st : SessionState)
    (hgen : job.generation = st.generation)
    (hi : 1 ≤ i) (hN : i < frames.length) :
    ((player_handle_job false (fun k => decide (i ≤ k)) frames job ts st).2
        ≤ i + 1) ∧
    ((player_handle_job false (fun k => decide (i ≤ k)) frames job ts st).1.player_queue
        = []) ∧
    ((player_handle_job false (fun k => decide (i ≤ k)) frames job ts st).1.tts_queue
        = []) ∧
    ((player_handle_job false (fun k => decide (i ≤ k)) frames job ts st).1.mp3_queue
        = []) ∧
    ((player_handle_job false (fun k => decide (i ≤ k)) frames job ts st).1.generation
        = st.generation + 1) ∧
    ((player_handle_job false (fun k => decide (i ≤ k)) frames job ts st).1.clears
        = st.clears + 1) := by
  have hnotne : ¬(job.generation ≠ st.generation) := by simp [hgen]
  have hstream : player_stream_frames false (fun k => decide (i ≤ k))
      job.generation st.generation frames 0 = (i, false) := by
    rw [hgen]
    exact player_stream_frames_barge_eq i st.generation frames 0
      (Nat.zero_le i) (by simpa using hN)
  simp only [player_handle_job, if_neg hnotne, hstream]
  simp only [Bool.false_eq_true, not_false_iff, true_and, Nat.le_refl,
    decide_eq_true_eq, if_pos]
  refine ⟨Nat.le_succ i, ?_⟩
  rcases job.transcript_text with _ | t
  · simp
  · by_cases ht : t ≠ ""
    · simp [ht]
    · simp [ht]

/-- Witness for the amended claim C5: barge-in raised while frame 1 of a
three-frame job is being sent. -/
theorem C5_barge_in_stops_discards_increments_witness :
    ((player_handle_job false (fun k => decide (1 ≤ k)) ["f1", "f2", "f3"]
        c5Greeting "TS" c5State).2 ≤ 1 + 1) ∧
    ((player_handle_job false (fun k => decide (1 ≤ k)) ["f1", "f2", "f3"]
        c5Greeting "TS" c5State).1.player_queue = []) ∧
    ((player_handle_job false (fun k => decide (1 ≤ k)) ["f1", "f2", "f3"]
        c5Greeting "TS" c5State).1.tts_queue = []) ∧
    ((player_handle_job false (fun k => decide (1 ≤ k)) ["f1", "f2", "f3"]
        c5Greeting "TS" c5State).1.mp3_queue = []) ∧
    ((player_handle_job false (fun k => decide (1 ≤ k)) ["f1", "f2", "f3"]
        c5Greeting "TS" c5State).1.generation = c5State.generation + 1) ∧
    ((player_handle_job false (fun k => decide (1 ≤ k)) ["f1", "f2", "f3"]
        c5Greeting "TS" c5State).1.clears = c5State.clears + 1) :=
  C5_barge_in_stops_discards_increments ["f1", "f2", "f3"] 1 c5Greeting "TS"
    c5State rfl (by decide) (by decide)

/-! ### Claim C8 -/

/-- Claim C8 (confirmed): while the assistant is playing and the caller
produces no speech (no `mark_speech` reset, no other clock operation),
the watchdog's effective silence does not advance: starting playback at
`t1 > 0` from a non-playing clock, its value at any `t ≥ t1` during
playback equals its value at `t1`, and it is still unchanged at `t2` when
playback stops there. -/
theorem C8_effective_silence_frozen_during_playback (c : PlaybackClock)
    (last_speech t1 t t2 : ℚ) (hplay : c.assistant_playing = false)
    (ht1 : 0 < t1) (ht : t1 ≤ t) (ht2 : t ≤ t2) :
    (effective_silence t last_speech (start_assistant_playing t1 c) =
      effective_silence t1 last_speech c) ∧
    (effective_silence t2 last_speech
        (stop_assistant_playing t2 (start_assistant_playing t1 c)) =
      effective_silence t1 last_speech c) := by
  have ht1' : t1 ≠ 0 := ne_of_gt ht1
  constructor
  · simp only [effective_silence, get_playback_pause_since_reset,
      start_assistant_playing, hplay, if_false, Bool.false_eq_true]
    simp only [ht1', and_true, if_true, ne_eq, not_false_iff, true_and,
      if_pos, Bool.false_eq_true, false_and, if_false, add_zero]
    congr 1
    ring
  · simp only [effective_silence, get_playback_pause_since_reset,
      stop_assistant_playing, start_assistant_playing, hplay, if_false,
      Bool.false_eq_true]
    simp only [ht1', if_true, Bool.false_eq_true, false_and, if_false,
      add_zero]
    congr 1
    ring

/-- Witness for claim C8: a clock with 2 s already accumulated, playback
starting at `t1 = 12` and running until `t2 = 25`, observed at
`t = 20`. -/
theorem C8_effective_silence_frozen_witness :
    (effective_silence 20 5 (start_assistant_playing 12 ⟨false, 2, 0⟩) =
      effective_silence 12 5 ⟨false, 2, 0⟩) ∧
    (effective_silence 25 5
        (stop_assistant_playing 25 (start_assistant_playing 12 ⟨false, 2, 0⟩)) =
      effective_silence 12 5 ⟨false, 2, 0⟩) :=
  C8_effective_silence_frozen_during_playback ⟨false, 2, 0⟩ 5 12 20 25 rfl
    (by norm_num) (by norm_num) (by norm_num)

/-! ### Claim C9 -/

/-- Claim C9 (confirmed): `append_transcript_line` appends nothing for a
`None` text or a text that strips to empty, and every line of a buffer
built by any sequence of appends has the form
`[timestamp] role: text` with non-empty text (the flushed file contains
exactly these lines, each followed by a newline, so its lines have the
same form). -/
theorem C9_transcript_lines_wellformed :
    (∀ (lines : List String) (role ts : String),
      append_transcript_line lines role none ts = lines) ∧
    (∀ (lines : List String) (role ts txt : String), pyStrip txt = "" →
      append_transcript_line lines role (some txt) ts = lines) ∧
    (∀ events : List (String × Option String × String),
      ∀ line ∈ transcriptRun events, IsTranscriptLine line) := by
  refine ⟨fun lines role ts => rfl, ?_, ?_⟩
  · intro lines role ts txt h
    simp [append_transcript_line, h]
  · intro events
    have key : ∀ (evs : List (String × Option String × String))
        (lines : List String), (∀ l ∈ lines, IsTranscriptLine l) →
        ∀ l ∈ evs.foldl
          (fun lines e => append_transcript_line lines e.1 e.2.1 e.2.2) lines,
          IsTranscriptLine l := by
      intro evs
      induction evs with
      | nil => intro lines h l hl; exact h l hl
      | cons e es ih =>
        intro lines h l hl
        simp only [List.foldl_cons] at hl
        refine ih _ ?_ l hl
        intro l' hl'
        rcases e with ⟨role, text, ts⟩
        match text with
        | none => exact h l' hl'
        | some txt =>
          simp only [append_transcript_line] at hl'
          by_cases hstrip : pyStrip txt = ""
          · rw [if_pos hstrip] at hl'
            exact h l' hl'
          · rw [if_neg hstrip] at hl'
            rcases List.mem_append.1 hl' with hmem | hmem
            · exact h l' hmem
            · rcases List.mem_singleton.1 hmem with rfl
              exact ⟨ts, role, pyStrip txt, hstrip, rfl⟩
    exact key events [] (fun l hl => absurd hl (List.not_mem_nil l))

/-- Witness for claim C9: a `None` append, a whitespace-only append, and
the shape of the line produced by a real caller utterance. -/
theorem C9_transcript_lines_wellformed_witness :
    (append_transcript_line [] "Assistant" none "T2" = []) ∧
    (append_transcript_line [] "Assistant" (some "   ") "T3" = []) ∧
    IsTranscriptLine "[T1] Caller: hi" := by
  refine ⟨C9_transcript_lines_wellformed.1 [] "Assistant" "T2",
    C9_transcript_lines_wellformed.2.1 [] "Assistant" "T3" "   " (by decide),
    C9_transcript_lines_wellformed.2.2 [("Caller", some " hi ", "T1")]
      "[T1] Caller: hi" (by decide)⟩

/-! ### Claim C10 -/

/-- Claim C10 (confirmed): (1) over any frame sequence of a session and
any parameter values, the chunks emitted by the VAD segmenter carry
pairwise distinct `chunk_index` values — the per-frame counter increments
unconditionally once per frame and at most one chunk is emitted per
frame, stamped with the pre-increment counter; (2) consequently the ASR
loop's deduplication, keyed on `chunk_index` alone
(`chunk.transcription != "" or chunk.chunk_index in processed_chunks`),
never skips a distinct not-yet-processed chunk: over any delivery order
of references with pairwise distinct indices, none already processed and
each resolving to a chunk whose transcription is still empty, every
reference ends up processed. -/
theorem C10_chunk_indices_distinct_and_dedup_safe (p : VadParams)
    (frames : List FrameIn) (asr : Nat × Nat → String) :
    (((vadRun p vadInit frames).2.map AudioChunk.chunk_index).Pairwise (· ≠ ·)) ∧
    (∀ (refs : List (Nat × Nat)) (s : WhisperState),
      (refs.map Prod.snd).Pairwise (· ≠ ·) →
      (∀ r ∈ refs, r.2 ∉ s.processed) →
      (∀ r ∈ refs, (lookupChunk s.phrases r.1 r.2).map AudioChunk.transcription
          = some "") →
      ∀ r ∈ refs, r.2 ∈ (whisperRun asr s refs).processed) := by
  constructor
  · exact ((vadRun_indices_increasing p frames vadInit).2).imp
      (fun h => Nat.ne_of_lt h)
  · intro refs
    induction refs with
    | nil =>
      intro s _ _ _ r hr
      exact absurd hr (List.not_mem_nil r)
    | cons q rest ih =>
      intro s hpw hnp hlk r hr
      simp only [List.map_cons, List.pairwise_cons] at hpw
      have hq := hlk q (List.mem_cons_self q rest)
      obtain ⟨c, hc, hct⟩ : ∃ c, lookupChunk s.phrases q.1 q.2 = some c ∧
          c.transcription = "" := by
        cases hl : lookupChunk s.phrases q.1 q.2 with
        | none => rw [hl] at hq; exact absurd hq (by simp)
        | some c =>
          rw [hl] at hq
          exact ⟨c, rfl, by simpa using hq⟩
      have hstep := whisperStep_not_skipped asr s q c hc hct
        (hnp q (List.mem_cons_self q rest))
      have hrun : whisperRun asr s (q :: rest) =
          whisperRun asr (whisperStep asr s q) rest := rfl
      rw [hrun]
      rcases List.mem_cons.1 hr with rfl | hr'
      · refine whisperRun_processed_mono asr rest (whisperStep asr s r) r.2 ?_
        rw [hstep.1]
        exact List.mem_cons_self _ _
      · refine ih (whisperStep asr s q) hpw.2 ?_ ?_ r hr'
        · intro r' hr''
          rw [hstep.1]
          intro hmem
          rcases List.mem_cons.1 hmem with heq | hmem'
          · exact hpw.1 r'.2 (List.mem_map_of_mem Prod.snd hr'') heq.symm
          · exact hnp r' (List.mem_cons_of_mem q hr'') hmem'
        · intro r' hr''
          have hne : r'.2 ≠ q.2 := fun he =>
            hpw.1 r'.2 (List.mem_map_of_mem Prod.snd hr'') he.symm
          rw [hstep.2 r'.1 r'.2 hne]
          exact hlk r' (List.mem_cons_of_mem q hr'')

/-- Witness for claim C10: the two chunks emitted by the concrete session
(indices 3 and 6 of phrase 0) are distinct and both get processed by the
transcription loop. -/
theorem C10_chunk_indices_distinct_witness :
    (((vadRun c10Params vadInit c10Frames).2.map AudioChunk.chunk_index).Pairwise
      (· ≠ ·)) ∧
    (∀ r ∈ c10Refs, r.2 ∈ (whisperRun (fun _ => "ok") c10Store c10Refs).processed) :=
  ⟨(C10_chunk_indices_distinct_and_dedup_safe c10Params c10Frames
      (fun _ => "ok")).1,
   (C10_chunk_indices_distinct_and_dedup_safe c10Params c10Frames
      (fun _ => "ok")).2 c10Refs c10Store (by decide) (by decide) (by decide)⟩

end AiCaller
